import Mathlib

/-!
Verification of the agentic honeypot service (src/main.py).

The extraction engine, per-session orchestration step and callback
dispatcher are embedded as executable Lean functions over `List Char`
(a message is its character list).  Python regular-expression searches
are realised by specialised left-to-right scanners faithful to the
backtracking semantics of the concrete patterns used in the source.
-/

set_option maxRecDepth 8000

namespace Honeypot

/-- Whitespace characters of the regex class backslash-s (ASCII range). -/
def isSpaceChar (c : Char) : Bool :=
  c = ' ' || c = '\t' || c = '\n' || c = '\r' || c = '\x0b' || c = '\x0c'

/-- ASCII decimal digit, the regex class backslash-d on this input alphabet. -/
def isDigitChar (c : Char) : Bool := '0' ≤ c && c ≤ '9'

/-- ASCII letter, the regex class a-zA-Z. -/
def isAlphaChar (c : Char) : Bool := ('a' ≤ c && c ≤ 'z') || ('A' ≤ c && c ≤ 'Z')

/-- Word character for the regex boundary backslash-b: letter, digit or underscore. -/
def isWordChar (c : Char) : Bool := isAlphaChar c || isDigitChar c || c = '_'

/-- Separator class [-\s] used inside the phone pattern. -/
def isSepChar (c : Char) : Bool := c = '-' || isSpaceChar c

/-- Character class [a-zA-Z0-9.\-_] of the local part of the UPI pattern. -/
def isUpiLocalChar (c : Char) : Bool :=
  isAlphaChar c || isDigitChar c || c = '.' || c = '-' || c = '_'

/-- Replace every maximal whitespace run by a single space:
the effect of re.sub(r"\s+", " ", text).  The flag records whether the
previous character belonged to a whitespace run. -/
def collapseWS : Bool → List Char → List Char
  | _, [] => []
  | inRun, c :: cs =>
    if isSpaceChar c then
      if inRun then collapseWS true cs else ' ' :: collapseWS true cs
    else c :: collapseWS false cs

/-- Drop leading and trailing whitespace, the .strip() call. -/
def stripWS (l : List Char) : List Char :=
  ((l.dropWhile isSpaceChar).reverse.dropWhile isSpaceChar).reverse

/-- text_clean = re.sub(r"\s+", " ", text).strip() in extract_intel. -/
def normalizeText (l : List Char) : List Char := stripWS (collapseWS false l)

/-- First list is a leading segment of the second. -/
def listStartsWith : List Char → List Char → Bool
  | [], _ => true
  | _ :: _, [] => false
  | p :: ps, c :: cs => p == c && listStartsWith ps cs

/-- Substring containment, the Python operator needle in hay. -/
def isInfixB (needle : List Char) : List Char → Bool
  | [] => needle.isEmpty
  | c :: cs => listStartsWith needle (c :: cs) || isInfixB needle cs

/-- Non-overlapping left-to-right scan realising re.findall: at each
position try the matcher; on success emit the token and resume after it,
otherwise advance one character.  Since every pattern used here consumes
at least one character, fuel equal to the input length is exact. -/
def findAllAux (m : List Char → Option (List Char × List Char)) :
    Nat → List Char → List (List Char)
  | 0, _ => []
  | _ + 1, [] => []
  | fuel + 1, c :: cs =>
    match m (c :: cs) with
    | some (tok, rest) => tok :: findAllAux m fuel rest
    | none => findAllAux m fuel cs

/-- Run a matcher over a whole string, re.findall for that pattern. -/
def findAll (m : List Char → Option (List Char × List Char)) (l : List Char) :
    List (List Char) :=
  findAllAux m l.length l

/-- Anchored match of the UPI pattern [a-zA-Z0-9.\-_]{2,}@[a-zA-Z]{2,}.
Greedy with backtracking; since the at-sign is outside the local class,
only the maximal local run can precede it. -/
def matchUpi (s : List Char) : Option (List Char × List Char) :=
  let a := s.takeWhile isUpiLocalChar
  match s.dropWhile isUpiLocalChar with
  | '@' :: r2 =>
    let b := r2.takeWhile isAlphaChar
    if 2 ≤ a.length && 2 ≤ b.length then
      some (a ++ '@' :: b, r2.dropWhile isAlphaChar)
    else none
  | _ => none

/-- Append a maximal non-whitespace run (at least one character) to a
matched prefix: the \S+ tail of the link pattern. -/
def matchNonSpaceTail (pre : List Char) (rest : List Char) :
    Option (List Char × List Char) :=
  let b := rest.takeWhile (fun c => !isSpaceChar c)
  if 1 ≤ b.length then
    some (pre ++ b, rest.dropWhile (fun c => !isSpaceChar c))
  else none

/-- Anchored match of the link pattern https?://\S+|www\.\S+ . -/
def matchLink (s : List Char) : Option (List Char × List Char) :=
  if listStartsWith "https://".toList s then
    matchNonSpaceTail "https://".toList (s.drop 8)
  else if listStartsWith "http://".toList s then
    matchNonSpaceTail "http://".toList (s.drop 7)
  else if listStartsWith "www.".toList s then
    matchNonSpaceTail "www.".toList (s.drop 4)
  else none

/-- Match n repetitions of (?:\d[-\s]?): a digit followed by an optional
separator.  Consuming an available separator is forced for all but the
final repetition and greedy-preferred for the final one, so the scan is
deterministic. -/
def matchDigitSeps : Nat → List Char → Option (List Char × List Char)
  | 0, s => some ([], s)
  | _ + 1, [] => none
  | n + 1, c :: cs =>
    if isDigitChar c then
      match cs with
      | d :: cs2 =>
        if isSepChar d then
          (matchDigitSeps n cs2).map (fun p => (c :: d :: p.1, p.2))
        else
          (matchDigitSeps n cs).map (fun p => (c :: p.1, p.2))
      | [] => (matchDigitSeps n []).map (fun p => (c :: p.1, p.2))
    else none

/-- Continue the phone pattern after the optional country prefix: the
optional separator [-\s]? followed by ten digit-separator groups. -/
def phoneTail (pre : List Char) (s : List Char) : Option (List Char × List Char) :=
  match s with
  | d :: cs =>
    if isSepChar d then
      (matchDigitSeps 10 cs).map (fun p => (pre ++ d :: p.1, p.2))
    else
      (matchDigitSeps 10 s).map (fun p => (pre ++ p.1, p.2))
  | [] => none

/-- Try one concrete alternative of the optional prefix (?:\+?91|0)?. -/
def phoneAlt (pfx : String) (s : List Char) : Option (List Char × List Char) :=
  if listStartsWith pfx.toList s then phoneTail pfx.toList (s.drop pfx.length)
  else none

/-- Anchored match of (?:\+?91|0)?[-\s]?(?:\d[-\s]?){10} with the
backtracking order of the Python engine: plus-91 first, then 91, then 0,
then the empty prefix. -/
def matchPhone (s : List Char) : Option (List Char × List Char) :=
  match phoneAlt "+91" s with
  | some r => some r
  | none =>
    match phoneAlt "91" s with
    | some r => some r
    | none =>
      match phoneAlt "0" s with
      | some r => some r
      | none => phoneTail [] s

/-- All matches of \b\d{9,18}\b: maximal digit runs of length 9 to 18
whose neighbours on both sides are non-word characters (or the string
ends).  The Boolean argument records whether the previous character was
a word character. -/
def bankRunsAux : Nat → Bool → List Char → List (List Char)
  | 0, _, _ => []
  | _ + 1, _, [] => []
  | fuel + 1, prevWord, c :: cs =>
    if isDigitChar c && !prevWord then
      let run := (c :: cs).takeWhile isDigitChar
      let rest := (c :: cs).dropWhile isDigitChar
      let okAfter := match rest with
        | [] => true
        | d :: _ => !isWordChar d
      if 9 ≤ run.length && run.length ≤ 18 && okAfter then
        run :: bankRunsAux fuel true rest
      else bankRunsAux fuel true rest
    else bankRunsAux fuel (isWordChar c) cs

/-- re.findall(r"\b\d{9,18}\b", text_clean). -/
def bankRuns (l : List Char) : List (List Char) := bankRunsAux l.length false l

/-- Leading digits accepted for a mobile number in extract_intel. -/
def leadDigits : List Char := ['5', '6', '7', '8', '9']

/-- Add an element to a duplicate-free accumulator, the set.add call. -/
def insertNew (acc : List (List Char)) (x : List Char) : List (List Char) :=
  if x ∈ acc then acc else acc ++ [x]

/-- One iteration of the phone loop: strip non-digits, require at least
ten digits, keep the trailing ten when they start with an accepted
leading digit. -/
def phoneFilterStep (acc : List (List Char)) (n : List Char) : List (List Char) :=
  let c := n.filter isDigitChar
  if 10 ≤ c.length then
    match c.drop (c.length - 10) with
    | d :: t => if d ∈ leadDigits then insertNew acc (d :: t) else acc
    | [] => acc
  else acc

/-- The phones set built from the raw candidate matches. -/
def phonesOf (raws : List (List Char)) : List (List Char) :=
  raws.foldl phoneFilterStep []

/-- One iteration of the bank loop: discard a digit run that occurs
inside any accepted phone number, keep runs longer than six digits. -/
def bankFilterStep (phones : List (List Char)) (acc : List (List Char))
    (d : List Char) : List (List Char) :=
  if phones.any (fun p => isInfixB d p) then acc
  else if 6 < d.length then insertNew acc d else acc

/-- The banks set built from the raw digit runs. -/
def banksOf (phones raws : List (List Char)) : List (List Char) :=
  raws.foldl (bankFilterStep phones) []

/-- Keyword vocabulary of extract_intel. -/
def triggerKeywords : List String :=
  ["urgent", "verify", "blocked", "kyc", "pay", "otp", "click", "apk",
   "account", "suspended", "reward"]

/-- Lower-case a character list, the .lower() call. -/
def lowerList (l : List Char) : List Char := l.map Char.toLower

/-- The five artifact sets returned by extract_intel. -/
structure Intel where
  upiIds : Finset (List Char)
  bankAccounts : Finset (List Char)
  phoneNumbers : Finset (List Char)
  phishingLinks : Finset (List Char)
  suspiciousKeywords : Finset (List Char)
deriving DecidableEq

/-- extract_intel from src/main.py: normalise, then run the five
extractors and return the deduplicated results. -/
def extract_intel (text : List Char) : Intel :=
  let tc := normalizeText text
  let upis := findAll matchUpi tc
  let links := findAll matchLink tc
  let phones := phonesOf (findAll matchPhone tc)
  let banks := banksOf phones (bankRuns tc)
  let kws := (triggerKeywords.filter
    (fun t => isInfixB t.toList (lowerList tc))).map String.toList
  { upiIds := upis.toFinset
    bankAccounts := banks.toFinset
    phoneNumbers := phones.toFinset
    phishingLinks := links.toFinset
    suspiciousKeywords := kws.toFinset }

example : (extract_intel "pay@upi".toList).upiIds = {"pay@upi".toList} := by decide

example : (extract_intel "call 9876543210".toList).phoneNumbers
    = {"9876543210".toList} := by decide

example : (extract_intel "call 9876543210".toList).bankAccounts = ∅ := by decide

example : (extract_intel "1234567890".toList).phoneNumbers = ∅ := by decide

example : (extract_intel "1234567890".toList).bankAccounts
    = {"1234567890".toList} := by decide

example : (extract_intel "bit.ly/fakebanksecure".toList).phishingLinks = ∅ := by
  decide

example : (extract_intel "www.evil.com".toList).phishingLinks
    = {"www.evil.com".toList} := by decide

example : (extract_intel "hello".toList) =
    ⟨∅, ∅, ∅, ∅, ∅⟩ := by decide

/-- Pointwise union of the five artifact sets: the merge loop of
main_endpoint writes existing.union(new_items) into every field. -/
def mergeIntel (a b : Intel) : Intel :=
  { upiIds := a.upiIds ∪ b.upiIds
    bankAccounts := a.bankAccounts ∪ b.bankAccounts
    phoneNumbers := a.phoneNumbers ∪ b.phoneNumbers
    phishingLinks := a.phishingLinks ∪ b.phishingLinks
    suspiciousKeywords := a.suspiciousKeywords ∪ b.suspiciousKeywords }

/-- got_new_item of the merge loop: true when some field of the new
candidate set is not a subset of the existing field. -/
def intelGotNew (old new : Intel) : Bool :=
  !(decide (new.upiIds ⊆ old.upiIds) &&
    decide (new.bankAccounts ⊆ old.bankAccounts) &&
    decide (new.phoneNumbers ⊆ old.phoneNumbers) &&
    decide (new.phishingLinks ⊆ old.phishingLinks) &&
    decide (new.suspiciousKeywords ⊆ old.suspiciousKeywords))

/-- Trigger vocabulary of the scam-detection check in main_endpoint. -/
def scamTriggerWords : List String :=
  ["blocked", "verify", "kyc", "upi", "pay", "link", "otp", "suspend"]

/-- Scam trigger: some vocabulary word occurs in the lower-cased raw
incoming text. -/
def checkScamTrigger (text : List Char) : Bool :=
  scamTriggerWords.any (fun k => isInfixB k.toList (lowerList text))

/-- MAX_TURNS constant of main_endpoint. -/
def MAX_TURNS : Nat := 18

/-- STALL_LIMIT constant of main_endpoint. -/
def STALL_LIMIT : Nat := 4

/-- has_critical_data of main_endpoint: some of the UPI, bank or link
sets is non-empty. -/
def has_critical_data (i : Intel) : Bool :=
  decide (0 < i.upiIds.card) || decide (0 < i.bankAccounts.card) ||
    decide (0 < i.phishingLinks.card)

/-- should_close of main_endpoint: the turn budget is exhausted, or
critical data is present and the stall counter reached the limit. -/
def should_close (turns stall : Nat) (i : Intel) : Bool :=
  decide (MAX_TURNS ≤ turns) ||
    (has_critical_data i && decide (STALL_LIMIT ≤ stall))

/-- Fixed agent notes written into the report payload. -/
def agentNotes : String :=
  "Agent engaged using Ramesh persona. Simulated technical failure to extract backup payment details."

/-- Per-session state stored by the service. -/
structure SessionState where
  turns : Nat
  scamDetected : Bool
  callbackSent : Bool
  noNewIntelTurns : Nat
  intel : Intel
deriving DecidableEq

/-- The empty intelligence bundle. -/
def emptyIntel : Intel := ⟨∅, ∅, ∅, ∅, ∅⟩

/-- init_session from src/main.py: fresh state with all counters zero,
all flags false and all sets empty. -/
def init_session : SessionState :=
  { turns := 0, scamDetected := false, callbackSent := false,
    noNewIntelTurns := 0, intel := emptyIntel }

/-- The report payload handed to the dispatcher. -/
structure ReportPayload where
  sessionId : List Char
  scamDetected : Bool
  totalMessagesExchanged : Nat
  extractedIntelligence : Intel
  agentNotes : List Char
deriving DecidableEq

/-- Observable shape of the reply returned to the caller: the fixed
neutral line while dormant, a delegated engagement line while engaged,
and the fixed connection-lost line at closure. -/
inductive Reply where
  | neutral
  | engaged
  | connectionLost
deriving DecidableEq

/-- Result of one inbound message: updated state, the payload scheduled
for dispatch this turn (if any), and the reply kind. -/
structure StepResult where
  state : SessionState
  dispatched : Option ReportPayload
  reply : Reply
deriving DecidableEq

/-- Updated stall counter of one turn: reset on novelty, otherwise
incremented — the noNewIntelTurns update of main_endpoint. -/
def stepStall (st : SessionState) (nd : Intel) : Nat :=
  if intelGotNew st.intel nd then 0 else st.noNewIntelTurns + 1

/-- The condition guarding the mandatory-callback block of
main_endpoint: the stop conditions hold and the report was not yet
sent. -/
def stepClose (st : SessionState) (nd : Intel) : Bool :=
  should_close (st.turns + 1) (stepStall st nd) (mergeIntel st.intel nd) &&
    !st.callbackSent

/-- The per-message core of main_endpoint from src/main.py: increment
the turn count, fire the scam trigger, extract and merge intelligence,
update the stall counter, evaluate the stop conditions, and schedule
the callback exactly when closing with the report-sent flag unset. -/
def main_endpoint (sid : List Char) (st : SessionState) (text : List Char) :
    StepResult :=
  if stepClose st (extract_intel text) then
    { state := { turns := st.turns + 1,
                 scamDetected := st.scamDetected || checkScamTrigger text,
                 callbackSent := true,
                 noNewIntelTurns := stepStall st (extract_intel text),
                 intel := mergeIntel st.intel (extract_intel text) }
      dispatched := some { sessionId := sid, scamDetected := true,
                           totalMessagesExchanged := st.turns + 1,
                           extractedIntelligence :=
                             mergeIntel st.intel (extract_intel text),
                           agentNotes := agentNotes.toList }
      reply := Reply.connectionLost }
  else
    { state := { turns := st.turns + 1,
                 scamDetected := st.scamDetected || checkScamTrigger text,
                 callbackSent := st.callbackSent,
                 noNewIntelTurns := stepStall st (extract_intel text),
                 intel := mergeIntel st.intel (extract_intel text) }
      dispatched := none
      reply := if st.scamDetected || checkScamTrigger text then Reply.engaged
               else Reply.neutral }

/-- Fold a sequence of inbound messages through main_endpoint. -/
def runSteps (sid : List Char) (st : SessionState) :
    List (List Char) → SessionState
  | [] => st
  | t :: ts => runSteps sid (main_endpoint sid st t).state ts

/-- Session state after processing a message sequence from a fresh
session. -/
def runSession (sid : List Char) (msgs : List (List Char)) : SessionState :=
  runSteps sid init_session msgs

/-- Number of report dispatches scheduled while processing a message
sequence from a given state. -/
def dispatchCountFrom (sid : List Char) (st : SessionState) :
    List (List Char) → Nat
  | [] => 0
  | t :: ts =>
    (if (main_endpoint sid st t).dispatched.isSome then 1 else 0) +
      dispatchCountFrom sid (main_endpoint sid st t).state ts

/-- Number of report dispatches scheduled over a whole session. -/
def dispatchCount (sid : List Char) (msgs : List (List Char)) : Nat :=
  dispatchCountFrom sid init_session msgs

/-- Outcome of one requests.post attempt: an HTTP status or a raised
exception. -/
inductive NetResult where
  | resp (status : Nat)
  | exc
deriving DecidableEq

/-- Success test of the dispatcher: 200 <= status < 300. -/
def is2xx : NetResult → Bool
  | NetResult.resp s => decide (200 ≤ s) && decide (s < 300)
  | NetResult.exc => false

/-- Observable trace of one dispatcher run: attempts made, whether a
success response was obtained, whether an exception was caught, and how
many one-second sleeps were executed. -/
structure CallbackTrace where
  attempts : Nat
  succeeded : Bool
  excCaught : Bool
  sleeps : Nat
deriving DecidableEq

/-- The retry loop of send_guvi_callback (for i in range(3)) without the
surrounding try: a raised exception escapes as an error carrying the
attempts made and sleeps executed so far. -/
def callbackLoop (net : Nat → NetResult) : Except (Nat × Nat) CallbackTrace :=
  match net 0 with
  | NetResult.exc => Except.error (1, 0)
  | NetResult.resp s0 =>
    if 200 ≤ s0 ∧ s0 < 300 then Except.ok ⟨1, true, false, 0⟩
    else
      match net 1 with
      | NetResult.exc => Except.error (2, 1)
      | NetResult.resp s1 =>
        if 200 ≤ s1 ∧ s1 < 300 then Except.ok ⟨2, true, false, 1⟩
        else
          match net 2 with
          | NetResult.exc => Except.error (3, 2)
          | NetResult.resp s2 =>
            if 200 ≤ s2 ∧ s2 < 300 then Except.ok ⟨3, true, false, 2⟩
            else Except.ok ⟨3, false, false, 3⟩

/-- send_guvi_callback from src/main.py: the retry loop wrapped in the
try/except that converts any raised exception into a logged, normally
returning outcome. -/
def send_guvi_callback (net : Nat → NetResult) : CallbackTrace :=
  match callbackLoop net with
  | Except.ok t => t
  | Except.error p => ⟨p.1, false, true, p.2⟩

/-- The turn count advances by one on every processed message. -/
theorem step_turns (sid : List Char) (st : SessionState) (t : List Char) :
    (main_endpoint sid st t).state.turns = st.turns + 1 := by
  unfold main_endpoint
  split <;> rfl

/-- The stall counter after a step is stepStall. -/
theorem step_noNew (sid : List Char) (st : SessionState) (t : List Char) :
    (main_endpoint sid st t).state.noNewIntelTurns
      = stepStall st (extract_intel t) := by
  unfold main_endpoint
  split <;> rfl

/-- The scam flag after a step is the old flag or-ed with the trigger. -/
theorem step_scam (sid : List Char) (st : SessionState) (t : List Char) :
    (main_endpoint sid st t).state.scamDetected
      = (st.scamDetected || checkScamTrigger t) := by
  unfold main_endpoint
  split <;> rfl

/-- The merged bundle after a step. -/
theorem step_intel (sid : List Char) (st : SessionState) (t : List Char) :
    (main_endpoint sid st t).state.intel
      = mergeIntel st.intel (extract_intel t) := by
  unfold main_endpoint
  split <;> rfl

/-- Once the report-sent flag is set, a step dispatches nothing and the
flag stays set. -/
theorem step_sent_frozen (sid : List Char) (st : SessionState) (t : List Char)
    (h : st.callbackSent = true) :
    (main_endpoint sid st t).dispatched = none ∧
      (main_endpoint sid st t).state.callbackSent = true := by
  unfold main_endpoint
  have hc : stepClose st (extract_intel t) = false := by
    unfold stepClose
    simp [h]
  rw [hc]
  simp [h]

/-- A step that dispatches leaves the report-sent flag set. -/
theorem step_dispatch_sets (sid : List Char) (st : SessionState) (t : List Char)
    (h : (main_endpoint sid st t).dispatched.isSome = true) :
    (main_endpoint sid st t).state.callbackSent = true := by
  unfold main_endpoint at h ⊢
  split at h
  case isTrue hc => simp [hc]
  case isFalse hc => simp at h

/-- No dispatch ever happens after the report-sent flag is set. -/
theorem dispatchCountFrom_sent_zero (sid : List Char) :
    ∀ (msgs : List (List Char)) (st : SessionState),
      st.callbackSent = true → dispatchCountFrom sid st msgs = 0 := by
  intro msgs
  induction msgs with
  | nil => intro st _; rfl
  | cons t ts ih =>
    intro st h
    have hf := step_sent_frozen sid st t h
    unfold dispatchCountFrom
    rw [hf.1, ih _ hf.2]
    rfl

/-- From any state, at most one dispatch happens over any message
sequence. -/
theorem dispatchCountFrom_le_one (sid : List Char) :
    ∀ (msgs : List (List Char)) (st : SessionState),
      dispatchCountFrom sid st msgs ≤ 1 := by
  intro msgs
  induction msgs with
  | nil => intro st; exact Nat.zero_le 1
  | cons t ts ih =>
    intro st
    unfold dispatchCountFrom
    by_cases hd : (main_endpoint sid st t).dispatched.isSome = true
    · rw [hd,
        dispatchCountFrom_sent_zero sid ts _ (step_dispatch_sets sid st t hd)]
      simp
    · simp only [Bool.not_eq_true] at hd
      rw [hd]
      simpa using ih (main_endpoint sid st t).state

/-- got_new_item is true exactly when the merged bundle differs from the
stored one, i.e. some field gained a new element. -/
theorem intelGotNew_iff (old new : Intel) :
    intelGotNew old new = true ↔ mergeIntel old new ≠ old := by
  cases old with
  | mk a1 a2 a3 a4 a5 =>
    cases new with
    | mk b1 b2 b3 b4 b5 =>
      simp [intelGotNew, mergeIntel, Intel.mk.injEq, Finset.union_eq_left]
      tauto

/-- After any number of steps the turn count equals the starting count
plus the number of messages processed. -/
theorem runSteps_turns (sid : List Char) :
    ∀ (msgs : List (List Char)) (st : SessionState),
      (runSteps sid st msgs).turns = st.turns + msgs.length := by
  intro msgs
  induction msgs with
  | nil => intro st; rfl
  | cons t ts ih =>
    intro st
    unfold runSteps
    rw [ih, step_turns]
    simp
    omega

/-- A bundle with no payment handle, bank account or link artifacts. -/
def CritEmpty (i : Intel) : Prop :=
  i.upiIds = ∅ ∧ i.bankAccounts = ∅ ∧ i.phishingLinks = ∅

/-- Merging two critically-empty bundles is critically empty. -/
theorem critEmpty_merge {a b : Intel} (ha : CritEmpty a) (hb : CritEmpty b) :
    CritEmpty (mergeIntel a b) := by
  obtain ⟨h1, h2, h3⟩ := ha
  obtain ⟨g1, g2, g3⟩ := hb
  exact ⟨by simp [mergeIntel, h1, g1], by simp [mergeIntel, h2, g2],
    by simp [mergeIntel, h3, g3]⟩

/-- A critically-empty bundle never satisfies has_critical_data. -/
theorem critEmpty_not_critical {i : Intel} (h : CritEmpty i) :
    has_critical_data i = false := by
  obtain ⟨h1, h2, h3⟩ := h
  simp [has_critical_data, h1, h2, h3]

/-- With no critical artifacts ever extracted, a dispatch happens on
exactly the first turn whose count reaches MAX_TURNS: the count of
dispatches over the remaining messages is one when the turn budget is
reached within them and zero otherwise. -/
theorem dispatchCountFrom_critEmpty (sid : List Char) :
    ∀ (msgs : List (List Char)) (st : SessionState),
      (∀ m ∈ msgs, CritEmpty (extract_intel m)) →
      CritEmpty st.intel → st.callbackSent = false →
      dispatchCountFrom sid st msgs =
        if msgs ≠ [] ∧ MAX_TURNS ≤ st.turns + msgs.length then 1 else 0 := by
  intro msgs
  induction msgs with
  | nil => intro st _ _ _; simp [dispatchCountFrom]
  | cons t ts ih =>
    intro st hmsgs hst hsent
    have hnd : CritEmpty (extract_intel t) := hmsgs t (List.mem_cons_self t ts)
    have hmerge : CritEmpty (mergeIntel st.intel (extract_intel t)) :=
      critEmpty_merge hst hnd
    have hclose : stepClose st (extract_intel t)
        = decide (MAX_TURNS ≤ st.turns + 1) := by
      unfold stepClose should_close
      rw [critEmpty_not_critical hmerge, hsent]
      simp
    by_cases hmax : MAX_TURNS ≤ st.turns + 1
    · have hcl : stepClose st (extract_intel t) = true := by
        rw [hclose]; simpa using hmax
      have hd : (main_endpoint sid st t).dispatched.isSome = true := by
        unfold main_endpoint
        rw [hcl]
        rfl
      unfold dispatchCountFrom
      rw [hd, dispatchCountFrom_sent_zero sid ts _ (step_dispatch_sets sid st t hd)]
      have hle : MAX_TURNS ≤ st.turns + (ts.length + 1) := by omega
      simp [hle]
    · have hcl : stepClose st (extract_intel t) = false := by
        rw [hclose]; simpa using hmax
      have hd : (main_endpoint sid st t).dispatched = none := by
        unfold main_endpoint
        rw [hcl]
        rfl
      have hstate : (main_endpoint sid st t).state.callbackSent = false := by
        unfold main_endpoint
        rw [hcl]
        exact hsent
      have hintel : CritEmpty (main_endpoint sid st t).state.intel := by
        rw [step_intel]
        exact hmerge
      unfold dispatchCountFrom
      rw [hd]
      have hrec := ih (main_endpoint sid st t).state
        (fun m hm => hmsgs m (List.mem_cons_of_mem t hm)) hintel hstate
      rw [hrec, step_turns]
      rcases ts with _ | ⟨t2, ts2⟩
      · simp [hmax]
      · simp only [List.length_cons, ne_eq, reduceCtorEq, not_false_iff,
          true_and, Option.isSome_none, Bool.false_eq_true, if_false,
          Nat.zero_add]
        have harith : st.turns + 1 + (ts2.length + 1)
            = st.turns + (ts2.length + 1 + 1) := by omega
        rw [harith]

/-- Shape of every accepted phone number: exactly ten characters whose
first is one of the accepted leading digits. -/
def PhoneShape (p : List Char) : Prop :=
  p.length = 10 ∧ ∃ d t, p = d :: t ∧ d ∈ leadDigits

/-- Membership after a deduplicating insertion. -/
theorem mem_insertNew {acc : List (List Char)} {x p : List Char}
    (h : p ∈ insertNew acc x) : p ∈ acc ∨ p = x := by
  unfold insertNew at h
  split at h
  · exact Or.inl h
  · rcases List.mem_append.mp h with h1 | h1
    · exact Or.inl h1
    · exact Or.inr (List.mem_singleton.mp h1)

/-- One phone-loop iteration only adds well-shaped numbers. -/
theorem mem_phoneFilterStep {acc : List (List Char)} {n p : List Char}
    (h : p ∈ phoneFilterStep acc n) : p ∈ acc ∨ PhoneShape p := by
  simp only [phoneFilterStep] at h
  split at h
  case isTrue h10 =>
    split at h
    case _ d t heq =>
      split at h
      case isTrue hd =>
        rcases mem_insertNew h with h1 | h1
        · exact Or.inl h1
        · right
          refine ⟨?_, d, t, h1, hd⟩
          have hlen := congrArg List.length heq
          rw [List.length_drop] at hlen
          rw [h1]
          rw [← hlen]
          omega
      case isFalse => exact Or.inl h
    case _ => exact Or.inl h
  case isFalse => exact Or.inl h

/-- The phone fold only accumulates well-shaped numbers. -/
theorem mem_phonesOf_fold :
    ∀ (raws acc : List (List Char)), (∀ p ∈ acc, PhoneShape p) →
      ∀ p ∈ raws.foldl phoneFilterStep acc, PhoneShape p := by
  intro raws
  induction raws with
  | nil => intro acc hacc p hp; exact hacc p hp
  | cons r rs ih =>
    intro acc hacc p hp
    rw [List.foldl_cons] at hp
    refine ih _ ?_ p hp
    intro q hq
    rcases mem_phoneFilterStep hq with h | h
    · exact hacc q h
    · exact h

/-- Every extracted phone number is ten digits long and starts with an
accepted leading digit. -/
theorem mem_phoneNumbers_shape (text p : List Char)
    (h : p ∈ (extract_intel text).phoneNumbers) : PhoneShape p := by
  have h2 : p ∈ (phonesOf (findAll matchPhone (normalizeText text))).toFinset := h
  rw [List.mem_toFinset] at h2
  exact mem_phonesOf_fold _ [] (fun q hq => absurd hq (List.not_mem_nil q)) p h2

/-- A list begins with itself followed by anything. -/
theorem listStartsWith_append (p q : List Char) :
    listStartsWith p (p ++ q) = true := by
  induction p with
  | nil => rfl
  | cons c cs ih => simp [listStartsWith, ih]

/-- Any token produced by the link matcher carries one of the three
scheme markers. -/
theorem matchLink_shape {s tok rest : List Char}
    (h : matchLink s = some (tok, rest)) :
    listStartsWith "http://".toList tok = true ∨
      listStartsWith "https://".toList tok = true ∨
      listStartsWith "www.".toList tok = true := by
  unfold matchLink at h
  split at h
  · simp only [matchNonSpaceTail] at h
    split at h
    · simp only [Option.some.injEq, Prod.mk.injEq] at h
      right; left
      rw [← h.1]
      exact listStartsWith_append _ _
    · exact absurd h (by simp)
  · split at h
    · simp only [matchNonSpaceTail] at h
      split at h
      · simp only [Option.some.injEq, Prod.mk.injEq] at h
        left
        rw [← h.1]
        exact listStartsWith_append _ _
      · exact absurd h (by simp)
    · split at h
      · simp only [matchNonSpaceTail] at h
        split at h
        · simp only [Option.some.injEq, Prod.mk.injEq] at h
          right; right
          rw [← h.1]
          exact listStartsWith_append _ _
        · exact absurd h (by simp)
      · exact absurd h (by simp)

/-- Every token collected by the scan was produced by the matcher at
some position. -/
theorem mem_findAllAux {m : List Char → Option (List Char × List Char)} :
    ∀ (fuel : Nat) (s x : List Char), x ∈ findAllAux m fuel s →
      ∃ s2 rest, m s2 = some (x, rest) := by
  intro fuel
  induction fuel with
  | zero => intro s x hx; simp [findAllAux] at hx
  | succ n ih =>
    intro s x hx
    rcases s with _ | ⟨c, cs⟩
    · simp [findAllAux] at hx
    · rcases hm : m (c :: cs) with _ | ⟨tok, rest⟩
      · simp only [findAllAux, hm] at hx
        exact ih cs x hx
      · simp only [findAllAux, hm] at hx
        rcases List.mem_cons.mp hx with h1 | h1
        · exact ⟨c :: cs, rest, by rw [hm, h1]⟩
        · exact ih rest x h1

/-- Every extracted link starts with http://, https:// or www. . -/
theorem mem_phishingLinks_shape (text l : List Char)
    (h : l ∈ (extract_intel text).phishingLinks) :
    listStartsWith "http://".toList l = true ∨
      listStartsWith "https://".toList l = true ∨
      listStartsWith "www.".toList l = true := by
  have h2 : l ∈ (findAll matchLink (normalizeText text)).toFinset := h
  rw [List.mem_toFinset] at h2
  obtain ⟨s2, rest, hm⟩ := mem_findAllAux _ _ _ h2
  exact matchLink_shape hm

/-- Any payload scheduled by a step carries scamDetected = true. -/
theorem step_payload_scam (sid : List Char) (st : SessionState)
    (t : List Char) (p : ReportPayload)
    (h : (main_endpoint sid st t).dispatched = some p) :
    p.scamDetected = true := by
  unfold main_endpoint at h
  split at h
  · simp only [Option.some.injEq] at h
    rw [← h]
  · simp at h

instance (i : Intel) : Decidable (CritEmpty i) := by
  unfold CritEmpty
  infer_instance

/-- C1: for every session, across any sequence of processed inbound
messages the report dispatch is scheduled at most once, and once the
report-sent flag is true no subsequent turn for that session ever
schedules a second dispatch. -/
theorem c1_report_at_most_once :
    (∀ (sid : List Char) (msgs : List (List Char)),
      dispatchCount sid msgs ≤ 1) ∧
    (∀ (sid : List Char) (st : SessionState) (msgs : List (List Char)),
      st.callbackSent = true → dispatchCountFrom sid st msgs = 0) :=
  ⟨fun sid msgs => dispatchCountFrom_le_one sid msgs init_session,
   fun sid st msgs h => dispatchCountFrom_sent_zero sid msgs st h⟩

/-- Witness for C1 at a concrete already-reported state. -/
theorem c1_report_at_most_once_witness :
    ({ init_session with callbackSent := true } : SessionState).callbackSent
        = true ∧
      dispatchCountFrom "s".toList { init_session with callbackSent := true }
        ["hi".toList] = 0 :=
  ⟨rfl, c1_report_at_most_once.2 _ _ _ rfl⟩

/-- Four turns with no artifacts, then the handle pay-at-upi arriving on
turn 5 and repeated verbatim on turns 6 to 8. -/
def stallScenarioMsgs : List (List Char) :=
  ["hi".toList, "hi".toList, "hi".toList, "hi".toList,
   "pay@upi".toList, "pay@upi".toList, "pay@upi".toList, "pay@upi".toList]

/-- C2 counterexample: on the claimed scenario the stall counter is 3,
not 4, after turn 8, and no report is scheduled through turn 8 — the
engagement has not closed at turn 8. -/
theorem c2_counterexample :
    (runSession "s".toList stallScenarioMsgs).noNewIntelTurns = 3 ∧
      dispatchCount "s".toList stallScenarioMsgs = 0 ∧
      (runSession "s".toList stallScenarioMsgs).callbackSent = false := by
  decide

/-- C2 amended: on that scenario the stall counter reaches only 3 at
turn 8; one further repeat of the handle brings it to 4 at turn 9, and
the engagement closes at turn 9 with the report scheduled and the
connection-lost reply. -/
theorem c2_stall_closure_turn_nine :
    (runSession "s".toList stallScenarioMsgs).noNewIntelTurns = 3 ∧
      dispatchCount "s".toList stallScenarioMsgs = 0 ∧
      (main_endpoint "s".toList (runSession "s".toList stallScenarioMsgs)
        "pay@upi".toList).state.noNewIntelTurns = 4 ∧
      (main_endpoint "s".toList (runSession "s".toList stallScenarioMsgs)
        "pay@upi".toList).state.turns = 9 ∧
      (main_endpoint "s".toList (runSession "s".toList stallScenarioMsgs)
        "pay@upi".toList).dispatched.isSome = true ∧
      (main_endpoint "s".toList (runSession "s".toList stallScenarioMsgs)
        "pay@upi".toList).reply = Reply.connectionLost ∧
      dispatchCount "s".toList (stallScenarioMsgs ++ ["pay@upi".toList]) = 1 := by
  decide

/-- C3 counterexample: the ten-digit run 1234567890 has a leading digit
outside the accepted set, is rejected as a phone number, yet lands in
the bankAccounts output rather than being discarded entirely. -/
theorem c3_counterexample :
    "1234567890".toList ∈ (extract_intel "1234567890".toList).bankAccounts ∧
      (extract_intel "1234567890".toList).phoneNumbers = ∅ := by
  decide

/-- C3 amended: a digit run whose trailing ten digits start outside the
accepted set never appears in phoneNumbers — every phoneNumbers entry
is ten characters starting with an accepted leading digit — but such a
run is not discarded entirely: it may still appear in bankAccounts. -/
theorem c3_rejected_runs_not_phones :
    ∀ (text p : List Char), p ∈ (extract_intel text).phoneNumbers →
      p.length = 10 ∧ ∃ d t, p = d :: t ∧ d ∈ leadDigits :=
  fun text p h => mem_phoneNumbers_shape text p h

/-- Witness for the C3 amended theorem at a concrete accepted number. -/
theorem c3_rejected_runs_not_phones_witness :
    "9876543210".toList ∈ (extract_intel "9876543210".toList).phoneNumbers ∧
      ("9876543210".toList.length = 10 ∧
        ∃ d t, "9876543210".toList = d :: t ∧ d ∈ leadDigits) :=
  ⟨by decide, c3_rejected_runs_not_phones "9876543210".toList "9876543210".toList (by decide)⟩

/-- C4 counterexample: the scheme-less bare domain is not captured into
the links output. -/
theorem c4_counterexample :
    "bit.ly/fakebanksecure".toList ∉
      (extract_intel "bit.ly/fakebanksecure".toList).phishingLinks := by
  decide

/-- C4 amended: scheme-less bare-domain tokens are not captured — the
text bit.ly/fakebanksecure yields an empty links set, and every
captured link starts with one of the three scheme markers. -/
theorem c4_links_require_scheme :
    (extract_intel "bit.ly/fakebanksecure".toList).phishingLinks = ∅ ∧
      ∀ (text l : List Char), l ∈ (extract_intel text).phishingLinks →
        listStartsWith "http://".toList l = true ∨
          listStartsWith "https://".toList l = true ∨
          listStartsWith "www.".toList l = true :=
  ⟨by decide, fun text l h => mem_phishingLinks_shape text l h⟩

/-- Witness for the C4 amended theorem at a concrete captured link. -/
theorem c4_links_require_scheme_witness :
    "www.evil.com".toList ∈
        (extract_intel "www.evil.com".toList).phishingLinks ∧
      (listStartsWith "http://".toList "www.evil.com".toList = true ∨
        listStartsWith "https://".toList "www.evil.com".toList = true ∨
        listStartsWith "www.".toList "www.evil.com".toList = true) :=
  ⟨by decide, c4_links_require_scheme.2 "www.evil.com".toList "www.evil.com".toList (by decide)⟩

/-- C5: the turn count increases by exactly one per processed message
(so over a whole session it equals the number of messages), and the
stall counter resets to zero exactly when some intelligence field gains
a new element and otherwise increases by exactly one. -/
theorem c5_counter_bookkeeping :
    (∀ (sid : List Char) (st : SessionState) (t : List Char),
      (main_endpoint sid st t).state.turns = st.turns + 1 ∧
        (main_endpoint sid st t).state.noNewIntelTurns =
          if mergeIntel st.intel (extract_intel t) ≠ st.intel then 0
          else st.noNewIntelTurns + 1) ∧
    (∀ (sid : List Char) (msgs : List (List Char)),
      (runSession sid msgs).turns = msgs.length) := by
  constructor
  · intro sid st t
    refine ⟨step_turns sid st t, ?_⟩
    rw [step_noNew]
    unfold stepStall
    by_cases h : intelGotNew st.intel (extract_intel t) = true
    · rw [if_pos h, if_pos ((intelGotNew_iff _ _).mp h)]
    · rw [if_neg h, if_neg (fun hne => h ((intelGotNew_iff _ _).mpr hne))]
  · intro sid msgs
    unfold runSession
    rw [runSteps_turns]
    simp [init_session]

/-- C6: once the scam-triggered flag is true it remains true after
every subsequent processed message, regardless of content. -/
theorem c6_scam_flag_monotone :
    ∀ (sid : List Char) (st : SessionState) (t : List Char),
      st.scamDetected = true →
        (main_endpoint sid st t).state.scamDetected = true := by
  intro sid st t h
  rw [step_scam, h]
  simp

/-- Witness for C6 at a concrete triggered state. -/
theorem c6_scam_flag_monotone_witness :
    ({ init_session with scamDetected := true } : SessionState).scamDetected
        = true ∧
      (main_endpoint "s".toList { init_session with scamDetected := true }
        "hi".toList).state.scamDetected = true :=
  ⟨rfl, c6_scam_flag_monotone _ _ _ rfl⟩

/-- C7: the intel merge is idempotent — merging the same candidate set
into a bundle twice yields the same bundle as merging it once. -/
theorem c7_merge_idempotent :
    ∀ b c : Intel, mergeIntel (mergeIntel b c) c = mergeIntel b c := by
  intro b c
  cases b
  cases c
  simp [mergeIntel, Finset.union_assoc, Finset.union_self]

/-- C8: has_critical_data holds exactly when one of the payment-handle,
bank-account or link sets is non-empty, and in a session whose messages
never yield any of those three artifact kinds a report is dispatched
exactly when the message count reaches MAX_TURNS — the stall path never
closes such a session. -/
theorem c8_critical_data_policy :
    (∀ i : Intel, has_critical_data i = true ↔
      (i.upiIds.Nonempty ∨ i.bankAccounts.Nonempty ∨ i.phishingLinks.Nonempty)) ∧
    (∀ (sid : List Char) (msgs : List (List Char)),
      (∀ m ∈ msgs, CritEmpty (extract_intel m)) →
      (0 < dispatchCount sid msgs ↔ MAX_TURNS ≤ msgs.length)) := by
  constructor
  · intro i
    simp [has_critical_data, Finset.card_pos]
    tauto
  · intro sid msgs h
    unfold dispatchCount
    rw [dispatchCountFrom_critEmpty sid msgs init_session h ⟨rfl, rfl, rfl⟩ rfl]
    rcases msgs with _ | ⟨m, ms⟩
    · simp [MAX_TURNS]
    · have hne : (m :: ms) ≠ [] := by simp
      constructor
      · intro h1
        by_contra hlt
        rw [if_neg (fun hx => hlt (by simpa [init_session] using hx.2))] at h1
        exact absurd h1 (by omega)
      · intro h1
        rw [if_pos ⟨hne, by simpa [init_session] using h1⟩]
        omega

/-- Witness for C8 on a concrete phone-number-only session of exactly
MAX_TURNS messages. -/
theorem c8_critical_data_policy_witness :
    (∀ m ∈ List.replicate 18 "9876543210".toList,
        CritEmpty (extract_intel m)) ∧
      (0 < dispatchCount "s".toList (List.replicate 18 "9876543210".toList) ↔
        MAX_TURNS ≤ (List.replicate 18 "9876543210".toList).length) :=
  ⟨by decide, c8_critical_data_policy.2 _ _ (by decide)⟩

/-- C10: every payload constructed at closure carries the constant
scamDetected = true, and a session of 18 trigger-free messages closes
by the turn-count path and dispatches such a payload while the session
state itself still has scamDetected = false. -/
theorem c10_payload_scam_constant :
    (∀ (sid : List Char) (st : SessionState) (t : List Char)
        (p : ReportPayload),
      (main_endpoint sid st t).dispatched = some p → p.scamDetected = true) ∧
    ((runSession "s".toList (List.replicate 17 "hello".toList)).scamDetected
        = false ∧
      (main_endpoint "s".toList
          (runSession "s".toList (List.replicate 17 "hello".toList))
          "hello".toList).dispatched =
        some { sessionId := "s".toList, scamDetected := true,
               totalMessagesExchanged := 18,
               extractedIntelligence := emptyIntel,
               agentNotes := agentNotes.toList } ∧
      (main_endpoint "s".toList
          (runSession "s".toList (List.replicate 17 "hello".toList))
          "hello".toList).state.scamDetected = false) :=
  ⟨step_payload_scam, by decide⟩

/-- Witness for C10 at a concrete closing step. -/
theorem c10_payload_scam_constant_witness :
    (main_endpoint "s".toList ⟨17, false, false, 0, emptyIntel⟩
        "hello".toList).dispatched =
      some ⟨"s".toList, true, 18, emptyIntel, agentNotes.toList⟩ ∧
    (⟨"s".toList, true, 18, emptyIntel, agentNotes.toList⟩ :
        ReportPayload).scamDetected = true :=
  ⟨by decide,
   c10_payload_scam_constant.1 "s".toList ⟨17, false, false, 0, emptyIntel⟩
     "hello".toList ⟨"s".toList, true, 18, emptyIntel, agentNotes.toList⟩
     (by decide)⟩

/-- A response inside the success range passes the 2xx test. -/
theorem is2xx_resp_true {s : Nat} (h : 200 ≤ s ∧ s < 300) :
    is2xx (NetResult.resp s) = true := by
  simp only [is2xx]
  rw [decide_eq_true h.1, decide_eq_true h.2]
  rfl

/-- A response outside the success range fails the 2xx test. -/
theorem is2xx_resp_false {s : Nat} (h : ¬(200 ≤ s ∧ s < 300)) :
    is2xx (NetResult.resp s) = false := by
  simp only [is2xx]
  by_cases h1 : 200 ≤ s
  · have h2 : ¬s < 300 := fun h2 => h ⟨h1, h2⟩
    rw [decide_eq_false h2, Bool.and_false]
  · rw [decide_eq_false h1, Bool.false_and]

/-- C9 counterexample: when the first attempt raises an exception the
dispatcher stops after one attempt with no success response, so early
termination is not equivalent to obtaining a 2xx response. -/
theorem c9_counterexample :
    (send_guvi_callback (fun _ => NetResult.exc)).attempts = 1 ∧
      (send_guvi_callback (fun _ => NetResult.exc)).attempts < 3 ∧
      (send_guvi_callback (fun _ => NetResult.exc)).succeeded = false := by
  decide

/-- C9 amended: the dispatcher makes between one and three attempts,
sleeps one second after every attempt that returned a non-2xx response,
succeeds exactly when its final attempt returned a 2xx response, stops
before the third attempt only on a 2xx response or a raised exception
(which abandons the remaining retries), makes every non-final attempt
on a failed response, and converts a raised exception into a normal
return instead of propagating it to the caller. -/
theorem c9_retry_discipline :
    ∀ net : Nat → NetResult,
      (1 ≤ (send_guvi_callback net).attempts ∧
        (send_guvi_callback net).attempts ≤ 3) ∧
      (send_guvi_callback net).succeeded
          = is2xx (net ((send_guvi_callback net).attempts - 1)) ∧
      ((send_guvi_callback net).attempts < 3 →
        (send_guvi_callback net).succeeded = true ∨
          (send_guvi_callback net).excCaught = true) ∧
      (∀ j, j + 1 < (send_guvi_callback net).attempts →
        is2xx (net j) = false ∧ net j ≠ NetResult.exc) ∧
      ((send_guvi_callback net).sleeps =
        (send_guvi_callback net).attempts -
          (if (send_guvi_callback net).succeeded = true ∨
              (send_guvi_callback net).excCaught = true then 1 else 0)) ∧
      (∀ a s, callbackLoop net = Except.error (a, s) →
        send_guvi_callback net = ⟨a, false, true, s⟩) := by
  intro net
  rcases h0 : net 0 with ⟨s0⟩ | _
  · by_cases h0x : 200 ≤ s0 ∧ s0 < 300
    · have hloop : callbackLoop net = Except.ok ⟨1, true, false, 0⟩ := by
        simp [callbackLoop, h0, h0x]
      have hsend : send_guvi_callback net = ⟨1, true, false, 0⟩ := by
        unfold send_guvi_callback
        rw [hloop]
      rw [hsend]
      refine ⟨⟨by decide, by decide⟩, ?_, ?_, ?_, by decide, ?_⟩
      · show true = is2xx (net 0)
        rw [h0]
        exact (is2xx_resp_true h0x).symm
      · intro _
        exact Or.inl rfl
      · intro j hj
        have hj1 : j + 1 < 1 := hj
        exact absurd hj1 (by omega)
      · intro a s hl
        rw [hloop] at hl
        exact absurd hl (by simp)
    · rcases h1 : net 1 with ⟨s1⟩ | _
      · by_cases h1x : 200 ≤ s1 ∧ s1 < 300
        · have hloop : callbackLoop net = Except.ok ⟨2, true, false, 1⟩ := by
            simp [callbackLoop, h0, h0x, h1, h1x]
          have hsend : send_guvi_callback net = ⟨2, true, false, 1⟩ := by
            unfold send_guvi_callback
            rw [hloop]
          rw [hsend]
          refine ⟨⟨by decide, by decide⟩, ?_, ?_, ?_, by decide, ?_⟩
          · show true = is2xx (net 1)
            rw [h1]
            exact (is2xx_resp_true h1x).symm
          · intro _
            exact Or.inl rfl
          · intro j hj
            have hj0 : j = 0 := by
              have hj2 : j + 1 < 2 := hj
              omega
            subst hj0
            rw [h0]
            exact ⟨is2xx_resp_false h0x, by simp⟩
          · intro a s hl
            rw [hloop] at hl
            exact absurd hl (by simp)
        · rcases h2 : net 2 with ⟨s2⟩ | _
          · by_cases h2x : 200 ≤ s2 ∧ s2 < 300
            · have hloop : callbackLoop net = Except.ok ⟨3, true, false, 2⟩ := by
                simp [callbackLoop, h0, h0x, h1, h1x, h2, h2x]
              have hsend : send_guvi_callback net = ⟨3, true, false, 2⟩ := by
                unfold send_guvi_callback
                rw [hloop]
              rw [hsend]
              refine ⟨⟨by decide, by decide⟩, ?_, ?_, ?_, by decide, ?_⟩
              · show true = is2xx (net 2)
                rw [h2]
                exact (is2xx_resp_true h2x).symm
              · intro h3
                exact absurd h3 (by decide)
              · intro j hj
                have hj01 : j = 0 ∨ j = 1 := by
                  have hj2 : j + 1 < 3 := hj
                  omega
                rcases hj01 with rfl | rfl
                · rw [h0]
                  exact ⟨is2xx_resp_false h0x, by simp⟩
                · rw [h1]
                  exact ⟨is2xx_resp_false h1x, by simp⟩
              · intro a s hl
                rw [hloop] at hl
                exact absurd hl (by simp)
            · have hloop : callbackLoop net = Except.ok ⟨3, false, false, 3⟩ := by
                simp [callbackLoop, h0, h0x, h1, h1x, h2, h2x]
              have hsend : send_guvi_callback net = ⟨3, false, false, 3⟩ := by
                unfold send_guvi_callback
                rw [hloop]
              rw [hsend]
              refine ⟨⟨by decide, by decide⟩, ?_, ?_, ?_, by decide, ?_⟩
              · show false = is2xx (net 2)
                rw [h2]
                exact (is2xx_resp_false h2x).symm
              · intro h3
                exact absurd h3 (by decide)
              · intro j hj
                have hj01 : j = 0 ∨ j = 1 := by
                  have hj2 : j + 1 < 3 := hj
                  omega
                rcases hj01 with rfl | rfl
                · rw [h0]
                  exact ⟨is2xx_resp_false h0x, by simp⟩
                · rw [h1]
                  exact ⟨is2xx_resp_false h1x, by simp⟩
              · intro a s hl
                rw [hloop] at hl
                exact absurd hl (by simp)
          · have hloop : callbackLoop net = Except.error (3, 2) := by
              simp [callbackLoop, h0, h0x, h1, h1x, h2]
            have hsend : send_guvi_callback net = ⟨3, false, true, 2⟩ := by
              unfold send_guvi_callback
              rw [hloop]
            rw [hsend]
            refine ⟨⟨by decide, by decide⟩, ?_, ?_, ?_, by decide, ?_⟩
            · show false = is2xx (net 2)
              rw [h2]
              rfl
            · intro h3
              exact absurd h3 (by decide)
            · intro j hj
              have hj01 : j = 0 ∨ j = 1 := by
                have hj2 : j + 1 < 3 := hj
                omega
              rcases hj01 with rfl | rfl
              · rw [h0]
                exact ⟨is2xx_resp_false h0x, by simp⟩
              · rw [h1]
                exact ⟨is2xx_resp_false h1x, by simp⟩
            · intro a s hl
              rw [hloop] at hl
              simp only [Except.error.injEq, Prod.mk.injEq] at hl
              rw [← hl.1, ← hl.2]
      · have hloop : callbackLoop net = Except.error (2, 1) := by
          simp [callbackLoop, h0, h0x, h1]
        have hsend : send_guvi_callback net = ⟨2, false, true, 1⟩ := by
          unfold send_guvi_callback
          rw [hloop]
        rw [hsend]
        refine ⟨⟨by decide, by decide⟩, ?_, ?_, ?_, by decide, ?_⟩
        · show false = is2xx (net 1)
          rw [h1]
          rfl
        · intro _
          exact Or.inr rfl
        · intro j hj
          have hj0 : j = 0 := by
            have hj2 : j + 1 < 2 := hj
            omega
          subst hj0
          rw [h0]
          exact ⟨is2xx_resp_false h0x, by simp⟩
        · intro a s hl
          rw [hloop] at hl
          simp only [Except.error.injEq, Prod.mk.injEq] at hl
          rw [← hl.1, ← hl.2]
  · have hloop : callbackLoop net = Except.error (1, 0) := by
      simp [callbackLoop, h0]
    have hsend : send_guvi_callback net = ⟨1, false, true, 0⟩ := by
      unfold send_guvi_callback
      rw [hloop]
    rw [hsend]
    refine ⟨⟨by decide, by decide⟩, ?_, ?_, ?_, by decide, ?_⟩
    · show false = is2xx (net 0)
      rw [h0]
      rfl
    · intro _
      exact Or.inr rfl
    · intro j hj
      have hj1 : j + 1 < 1 := hj
      exact absurd hj1 (by omega)
    · intro a s hl
      rw [hloop] at hl
      simp only [Except.error.injEq, Prod.mk.injEq] at hl
      rw [← hl.1, ← hl.2]

/-- Witness for the C9 amended theorem at a concrete always-failing
network. -/
theorem c9_retry_discipline_witness :
    (send_guvi_callback (fun _ => NetResult.resp 200)).succeeded = true ∨
      (send_guvi_callback (fun _ => NetResult.resp 200)).excCaught = true :=
  (c9_retry_discipline (fun _ => NetResult.resp 200)).2.2.1 (by decide)

end Honeypot
